import Mathlib

/-!
Verification development for the thermodynamics module of CLASS
(`include/thermodynamics.h` plus the pipeline it declares).

The two smoothing step macros `f1`, `f2` are embedded directly from the
header.  The pipeline functions (`thermodynamics_init`,
`thermodynamics_at_z`, `thermodynamics_reionization`,
`thermodynamics_reionization_sample`, `thermodynamics_merge_reco_and_reio`)
are declared in the header but their bodies are not part of the source
tree, so they are modelled from the specification, using exact rational
arithmetic for the tabulated quantities and real numbers for the
exponential of the optical depth.
-/

/-- Embedded from `thermodynamics.h` line 30:
`#define f1(x) (-0.75*x*(x*x/3.-1.)+0.5)` -/
noncomputable def f1 (x : ℝ) : ℝ := -0.75*x*(x*x/3 - 1) + 0.5

/-- Embedded from `thermodynamics.h` line 31:
`#define f2(x) (x*x*(0.5-x/3.)*6.)` -/
noncomputable def f2 (x : ℝ) : ℝ := x*x*(0.5 - x/3)*6

lemma f1_hasDerivAt (x : ℝ) : HasDerivAt f1 (0.75*(1 - x*x)) x := by
  have h1 : HasDerivAt (fun y : ℝ => y) 1 x := hasDerivAt_id x
  have hsq : HasDerivAt (fun y : ℝ => y*y) (1*x + x*1) x := h1.mul h1
  have h2 : HasDerivAt (fun y : ℝ => y*y/3 - 1) ((1*x + x*1)/3) x :=
    (hsq.div_const 3).sub_const 1
  have h4 : HasDerivAt (fun y : ℝ => y*(y*y/3 - 1))
      (1*(x*x/3 - 1) + x*((1*x + x*1)/3)) x := h1.mul h2
  have h5 := (h4.const_mul (-0.75 : ℝ)).add_const (0.5 : ℝ)
  have h6 : f1 = fun y : ℝ => -0.75*(y*(y*y/3 - 1)) + 0.5 := by
    funext y; simp only [f1]; ring
  rw [h6]
  convert h5 using 1
  ring

lemma f2_hasDerivAt (x : ℝ) : HasDerivAt f2 (6*x - 6*(x*x)) x := by
  have h1 : HasDerivAt (fun y : ℝ => y) 1 x := hasDerivAt_id x
  have hsq : HasDerivAt (fun y : ℝ => y*y) (1*x + x*1) x := h1.mul h1
  have h2 : HasDerivAt (fun y : ℝ => 0.5 - y/3) (-(1/3)) x := by
    have h := (h1.div_const 3).const_sub (0.5 : ℝ)
    convert h using 1
  have h3 := (hsq.mul h2).mul_const (6 : ℝ)
  have h6 : f2 = fun y : ℝ => ((y*y)*(0.5 - y/3))*6 := by
    funext y; simp only [f2]
  rw [h6]
  convert h3 using 1
  ring

/-- C9: the two smoothing windows of `thermodynamics.h` are exact cubic
smoothsteps: `f1` rises from value 0 at x = -1 to value 1 at x = 1 with
vanishing derivative at both window boundaries, and `f2` rises from value 0
at x = 0 to value 1 at x = 1 with vanishing derivative at both window
boundaries. -/
theorem smoothstep_boundary_conditions :
    f1 (-1) = 0 ∧ f1 1 = 1 ∧ deriv f1 (-1) = 0 ∧ deriv f1 1 = 0 ∧
    f2 0 = 0 ∧ f2 1 = 1 ∧ deriv f2 0 = 0 ∧ deriv f2 1 = 0 := by
  refine ⟨?_, ?_, ?_, ?_, ?_, ?_, ?_, ?_⟩
  · simp only [f1]; norm_num
  · simp only [f1]; norm_num
  · rw [(f1_hasDerivAt (-1)).deriv]; norm_num
  · rw [(f1_hasDerivAt 1).deriv]; norm_num
  · simp only [f2]; norm_num
  · simp only [f2]; norm_num
  · rw [(f2_hasDerivAt 0).deriv]; norm_num
  · rw [(f2_hasDerivAt 1).deriv]; norm_num

/-- C10: the two smoothing windows coincide up to the affine change of
variable mapping [0,1] onto [-1,1]: `f1 (2x-1) = f2 x`, and both equal the
cubic smoothstep polynomial `3x^2 - 2x^3`. -/
theorem smoothstep_affine_coincidence (x : ℝ) :
    f1 (2*x - 1) = f2 x ∧ f2 x = 3*x^2 - 2*x^3 := by
  constructor
  · simp only [f1, f2]; ring
  · simp only [f2]; ring

/-- Error taxonomy of the module, modelled from the spec (section 7):
configuration errors, root-search bracketing failure and non-convergence,
merge inconsistency, and the recoverable out-of-range query error. -/
inductive ThermoError where
  | configurationError
  | integrationDivergence
  | bracketingFailure
  | nonConvergence
  | mergeInconsistency
  | outOfRange
deriving DecidableEq

/-- Columns of the thermodynamics table, mirroring the `index_th_*` fields
of `struct thermo` in `thermodynamics.h` (each column is the tabulated
value of one thermodynamical quantity as a function of the row index).
The column `kappa` stores the cumulative optical depth; the stored
`index_th_exp_m_kappa` column of the C struct corresponds to
`Real.exp (-kappa)` of it (see `exp_m_kappa`). -/
structure Columns where
  xe : Nat → ℚ
  dkappa : Nat → ℚ
  kappa : Nat → ℚ
  g : Nat → ℚ
  Tb : Nat → ℚ
  cb2 : Nat → ℚ

/-- The thermodynamics interpolation table of `struct thermo`: number of
rows `tt_size`, the redshift vector `z_table` (increasing, starting at
z = 0 today), and the quantity columns of `thermodynamics_table`. -/
structure ThermoTable where
  n : Nat
  zf : Nat → ℚ
  cols : Columns

/-- The tabulated `exp_m_kappa` field (`index_th_exp_m_kappa`): the
exponential of minus the cumulative optical depth stored in row `i`. -/
noncomputable def exp_m_kappa (t : ThermoTable) (i : Nat) : ℝ :=
  Real.exp (-(t.cols.kappa i : ℝ))

/-- Strict monotonicity of the first `n` entries of a redshift vector. -/
def SortedZ (n : Nat) (zf : Nat → ℚ) : Prop :=
  ∀ i < n - 1, zf i < zf (i + 1)

instance (n : Nat) (zf : Nat → ℚ) : Decidable (SortedZ n zf) := by
  unfold SortedZ; infer_instance

lemma sortedZ_lt {n : Nat} {zf : Nat → ℚ} (hs : SortedZ n zf) :
    ∀ {i j : Nat}, i < j → j < n → zf i < zf j := by
  intro i j
  induction j with
  | zero => intro h _; exact absurd h (Nat.not_lt_zero i)
  | succ k ih =>
    intro hij hk
    have hstep : zf k < zf (k + 1) := hs k (by omega)
    rcases Nat.lt_succ_iff_lt_or_eq.mp hij with h | h
    · exact lt_trans (ih h (by omega)) hstep
    · rw [h]; exact hstep

lemma sortedZ_le {n : Nat} {zf : Nat → ℚ} (hs : SortedZ n zf) :
    ∀ {i j : Nat}, i ≤ j → j < n → zf i ≤ zf j := by
  intro i j hij hj
  rcases Nat.eq_or_lt_of_le hij with h | h
  · rw [h]
  · exact le_of_lt (sortedZ_lt hs h hj)

/-- Modelled from the spec: the inputs of `thermodynamics_init`
(`Initialize`), namely the proposed redshift grid together with the merged
ionization history, scattering rate, visibility and baryon columns as
produced by the earlier pipeline stages, and the physical upper bound on
the ionization fraction. -/
structure InitInput where
  n : Nat
  zf : Nat → ℚ
  xe : Nat → ℚ
  dkappa : Nat → ℚ
  g : Nat → ℚ
  Tb : Nat → ℚ
  cb2 : Nat → ℚ
  xeMax : ℚ

/-- Modelled from the spec: the validity checks of the pipeline (sections
3, 7 and 8): at least two rows, grid starting at z = 0 today and strictly
increasing, ionization fraction within its physical bounds (0, xeMax],
and a non-negative Thomson scattering rate.  A parameter set violating
them is rejected (fatal error, no table exposed). -/
def initChecks (p : InitInput) : Prop :=
  2 ≤ p.n ∧ p.zf 0 = 0 ∧
  (∀ i < p.n - 1, p.zf i < p.zf (i + 1)) ∧
  (∀ i < p.n, 0 < p.xe i ∧ p.xe i ≤ p.xeMax) ∧
  (∀ i < p.n, 0 ≤ p.dkappa i)

instance (p : InitInput) : Decidable (initChecks p) := by
  unfold initChecks; infer_instance

/-- Modelled from the spec (section 4.4): cumulative optical depth
obtained by integrating the scattering rate backward from z = 0, where it
is exactly 0, by the trapezoid rule over the grid. -/
def kappaAcc (p : InitInput) : Nat → ℚ
  | 0 => 0
  | i + 1 => kappaAcc p i + (p.zf (i + 1) - p.zf i) * (p.dkappa i + p.dkappa (i + 1)) / 2

/-- Modelled from the spec: the table assembled by a successful
initialization, with the cumulative optical depth column filled in by
`kappaAcc`. -/
def mkThermoTable (p : InitInput) : ThermoTable :=
  ⟨p.n, p.zf, ⟨p.xe, p.dkappa, kappaAcc p, p.g, p.Tb, p.cb2⟩⟩

/-- Modelled from the spec: `thermodynamics_init` (`Initialize`) either
fully succeeds, returning the completed table, or fails with an error and
no table is returned (section 7). -/
def thermodynamics_init (p : InitInput) : Except ThermoError ThermoTable :=
  if initChecks p then .ok (mkThermoTable p) else .error .configurationError

lemma kappaAcc_nonneg_mono (p : InitInput) (hz : SortedZ p.n p.zf)
    (hk : ∀ i < p.n, 0 ≤ p.dkappa i) :
    ∀ i, i + 1 < p.n → 0 ≤ kappaAcc p i ∧ kappaAcc p i ≤ kappaAcc p (i + 1) := by
  intro i
  induction i with
  | zero =>
    intro h1
    refine ⟨le_refl 0, ?_⟩
    show (0 : ℚ) ≤ kappaAcc p 0 + (p.zf 1 - p.zf 0) * (p.dkappa 0 + p.dkappa 1) / 2
    have hzz : p.zf 0 < p.zf 1 := hz 0 (by omega)
    have h0 : 0 ≤ p.dkappa 0 := hk 0 (by omega)
    have h11 : 0 ≤ p.dkappa 1 := hk 1 (by omega)
    show (0 : ℚ) ≤ 0 + (p.zf 1 - p.zf 0) * (p.dkappa 0 + p.dkappa 1) / 2
    have : (0 : ℚ) ≤ (p.zf 1 - p.zf 0) * (p.dkappa 0 + p.dkappa 1) / 2 := by
      apply div_nonneg _ (by norm_num)
      exact mul_nonneg (by linarith) (by linarith)
    linarith
  | succ k ih =>
    intro h1
    have hprev := ih (by omega)
    have hstep : (0 : ℚ) ≤ (p.zf (k + 2) - p.zf (k + 1)) * (p.dkappa (k + 1) + p.dkappa (k + 2)) / 2 := by
      have hzz : p.zf (k + 1) < p.zf (k + 2) := hz (k + 1) (by omega)
      have ha : 0 ≤ p.dkappa (k + 1) := hk (k + 1) (by omega)
      have hb : 0 ≤ p.dkappa (k + 2) := hk (k + 2) (by omega)
      apply div_nonneg _ (by norm_num)
      exact mul_nonneg (by linarith) (by linarith)
    constructor
    · exact le_trans hprev.1 hprev.2
    · show kappaAcc p (k + 1) ≤ kappaAcc p (k + 1) + _
      linarith

/-- C1: every table produced by a successful `thermodynamics_init` has a
strictly sorted redshift vector with no duplicates, ionization fraction in
(0, xeMax] at every row, cumulative optical depth exactly 0 at z = 0,
and `exp(-kappa)` in (0,1] at every row and monotonically non-decreasing
as z decreases (i.e. as the row index decreases).  Every field is an
exact rational, hence finite. -/
theorem thermodynamics_init_invariant (p : InitInput) (t : ThermoTable)
    (h : thermodynamics_init p = .ok t) :
    (∀ i j, i < j → j < t.n → t.zf i < t.zf j) ∧
    (∀ i < t.n, 0 < t.cols.xe i ∧ t.cols.xe i ≤ p.xeMax) ∧
    t.zf 0 = 0 ∧ t.cols.kappa 0 = 0 ∧
    (∀ i < t.n, 0 < exp_m_kappa t i ∧ exp_m_kappa t i ≤ 1) ∧
    (∀ i, i + 1 < t.n → exp_m_kappa t (i + 1) ≤ exp_m_kappa t i) := by
  unfold thermodynamics_init at h
  split at h
  case isFalse => exact absurd h (by simp)
  case isTrue hc =>
    obtain ⟨hn, hz0, hsort, hxe, hdk⟩ := hc
    have ht : t = mkThermoTable p := by
      injection h with h'
      exact h'.symm
    subst ht
    have hs : SortedZ p.n p.zf := hsort
    have hmono := kappaAcc_nonneg_mono p hs hdk
    have hnonneg : ∀ i < p.n, 0 ≤ kappaAcc p i := by
      intro i hi
      rcases Nat.eq_or_lt_of_le (Nat.succ_le_of_lt hi) with hcase | hcase
    -- either i is the last row or not
      · cases i with
        | zero => exact le_refl 0
        | succ k =>
          have hk := hmono k (by omega)
          exact le_trans hk.1 hk.2
      · exact (hmono i (by omega)).1
    refine ⟨?_, ?_, ?_, ?_, ?_, ?_⟩
    · intro i j hij hj
      exact sortedZ_lt hs hij hj
    · exact hxe
    · exact hz0
    · rfl
    · intro i hi
      constructor
      · exact Real.exp_pos _
      · unfold exp_m_kappa
        calc Real.exp (-((mkThermoTable p).cols.kappa i : ℝ))
            ≤ Real.exp 0 := by
              apply Real.exp_le_exp.mpr
              simp only [mkThermoTable]
              have := hnonneg i hi
              have : (0 : ℝ) ≤ (kappaAcc p i : ℝ) := by exact_mod_cast this
              linarith
          _ = 1 := Real.exp_zero
    · intro i hi
      unfold exp_m_kappa
      apply Real.exp_le_exp.mpr
      simp only [mkThermoTable]
      have := (hmono i hi).2
      have : (kappaAcc p i : ℝ) ≤ (kappaAcc p (i + 1) : ℝ) := by exact_mod_cast this
      linarith

/-- Concrete two-row input used to instantiate the invariant theorem. -/
def initInputW : InitInput :=
  ⟨2, fun i => (i : ℚ), fun _ => 1, fun _ => 1, fun _ => 0, fun _ => 0, fun _ => 0, 1⟩

/-- Witness for C1: the invariant theorem instantiated on a concrete
two-row table accepted by `thermodynamics_init`. -/
theorem thermodynamics_init_invariant_witness :
    thermodynamics_init initInputW = .ok (mkThermoTable initInputW) ∧
    ((∀ i j, i < j → j < (mkThermoTable initInputW).n →
        (mkThermoTable initInputW).zf i < (mkThermoTable initInputW).zf j) ∧
    (∀ i < (mkThermoTable initInputW).n,
        0 < (mkThermoTable initInputW).cols.xe i ∧
        (mkThermoTable initInputW).cols.xe i ≤ initInputW.xeMax) ∧
    (mkThermoTable initInputW).zf 0 = 0 ∧ (mkThermoTable initInputW).cols.kappa 0 = 0 ∧
    (∀ i < (mkThermoTable initInputW).n,
        0 < exp_m_kappa (mkThermoTable initInputW) i ∧
        exp_m_kappa (mkThermoTable initInputW) i ≤ 1) ∧
    (∀ i, i + 1 < (mkThermoTable initInputW).n →
        exp_m_kappa (mkThermoTable initInputW) (i + 1) ≤
          exp_m_kappa (mkThermoTable initInputW) i)) := by
  have hok : thermodynamics_init initInputW = .ok (mkThermoTable initInputW) := by
    unfold thermodynamics_init
    rw [if_pos (by decide)]
  exact ⟨hok, thermodynamics_init_invariant initInputW (mkThermoTable initInputW) hok⟩


/-- Modelled from the spec (section 4.5): the property of being the
bracketing interval index for a query redshift `z` on a grid of `n` knots:
the interval starts at a valid knot below `z` and either `z` lies strictly
below the next knot or the interval is the topmost one. -/
def goodIdx (n : Nat) (zf : Nat → ℚ) (z : ℚ) (i : Nat) : Prop :=
  i + 1 < n ∧ zf i ≤ z ∧ (z < zf (i + 1) ∨ i + 2 = n)

lemma goodIdx_lt_asymm {n : Nat} {zf : Nat → ℚ} {z : ℚ} {i j : Nat}
    (hs : SortedZ n zf) (hij : i < j)
    (hi : goodIdx n zf z i) (hj : goodIdx n zf z j) : False := by
  obtain ⟨hi1, hi2, hi3⟩ := hi
  obtain ⟨hj1, hj2, hj3⟩ := hj
  rcases hi3 with h | h
  · have h1 : zf (i + 1) ≤ zf j := sortedZ_le hs (by omega) (by omega)
    exact absurd (lt_of_lt_of_le h h1) (not_lt.mpr hj2)
  · omega

lemma goodIdx_unique {n : Nat} {zf : Nat → ℚ} {z : ℚ} {i j : Nat}
    (hs : SortedZ n zf) (hi : goodIdx n zf z i) (hj : goodIdx n zf z j) : i = j := by
  rcases Nat.lt_trichotomy i j with h | h | h
  · exact (goodIdx_lt_asymm hs h hi hj).elim
  · exact h
  · exact (goodIdx_lt_asymm hs h hj hi).elim

/-- Modelled from the spec (section 4.5, growing mode): strictly forward
linear advancement of the bracketing index, for callers guaranteeing a
monotonically increasing query sequence. -/
def bracketGrowing (n : Nat) (zf : Nat → ℚ) (z : ℚ) : Nat → Nat → Nat
  | 0, i => i
  | fuel + 1, i =>
      if i + 2 < n ∧ zf (i + 1) ≤ z then bracketGrowing n zf z fuel (i + 1) else i

lemma bracketGrowing_good {n : Nat} {zf : Nat → ℚ} {z : ℚ} :
    ∀ fuel i, i + 1 < n → zf i ≤ z → n ≤ fuel + i + 2 →
      goodIdx n zf z (bracketGrowing n zf z fuel i) := by
  intro fuel
  induction fuel with
  | zero =>
    intro i h1 h2 h3
    show goodIdx n zf z i
    exact ⟨h1, h2, Or.inr (by omega)⟩
  | succ fuel ih =>
    intro i h1 h2 h3
    show goodIdx n zf z (if i + 2 < n ∧ zf (i + 1) ≤ z then bracketGrowing n zf z fuel (i + 1) else i)
    split
    case isTrue hc => exact ih (i + 1) (by omega) hc.2 (by omega)
    case isFalse hc =>
      refine ⟨h1, h2, ?_⟩
      rcases not_and_or.mp hc with h | h
      · exact Or.inr (by omega)
      · exact Or.inl (not_le.mp h)

/-- Modelled from the spec (section 4.5, closest-hint mode): walk the
hinted index downward while it overshoots the query redshift. -/
def bracketDown (zf : Nat → ℚ) (z : ℚ) : Nat → Nat → Nat
  | 0, i => i
  | fuel + 1, i =>
      if 0 < i ∧ z < zf i then bracketDown zf z fuel (i - 1) else i

lemma bracketDown_le {zf : Nat → ℚ} {z : ℚ} :
    ∀ fuel i, bracketDown zf z fuel i ≤ i := by
  intro fuel
  induction fuel with
  | zero => intro i; exact le_refl i
  | succ fuel ih =>
    intro i
    show (if 0 < i ∧ z < zf i then bracketDown zf z fuel (i - 1) else i) ≤ i
    split
    case isTrue hc => exact le_trans (ih (i - 1)) (by omega)
    case isFalse hc => exact le_refl i

lemma bracketDown_prop {zf : Nat → ℚ} {z : ℚ} :
    ∀ fuel i, i ≤ fuel →
      bracketDown zf z fuel i = 0 ∨ zf (bracketDown zf z fuel i) ≤ z := by
  intro fuel
  induction fuel with
  | zero =>
    intro i hi
    left
    show i = 0
    omega
  | succ fuel ih =>
    intro i hi
    show bracketDown zf z (fuel + 1) i = 0 ∨ zf (bracketDown zf z (fuel + 1) i) ≤ z
    show (if 0 < i ∧ z < zf i then bracketDown zf z fuel (i - 1) else i) = 0 ∨
      zf (if 0 < i ∧ z < zf i then bracketDown zf z fuel (i - 1) else i) ≤ z
    split
    case isTrue hc => exact ih (i - 1) (by omega)
    case isFalse hc =>
      rcases not_and_or.mp hc with h | h
      · left; omega
      · right; exact not_lt.mp h

/-- Modelled from the spec (section 4.5, closest-hint mode): seed a local
search with the caller-supplied last-known index, walking down below the
query redshift and then forward to the bracketing interval. -/
def bracketClosest (n : Nat) (zf : Nat → ℚ) (z : ℚ) (hint : Nat) : Nat :=
  bracketGrowing n zf z n (bracketDown zf z n (min hint (n - 2)))

lemma bracketClosest_good {n : Nat} {zf : Nat → ℚ} {z : ℚ} (hint : Nat)
    (hn : 2 ≤ n) (hlo : zf 0 ≤ z) :
    goodIdx n zf z (bracketClosest n zf z hint) := by
  have hj0 : min hint (n - 2) ≤ n - 2 := min_le_right _ _
  have hdle : bracketDown zf z n (min hint (n - 2)) ≤ min hint (n - 2) :=
    bracketDown_le n _
  have hd := @bracketDown_prop zf z n (min hint (n - 2)) (by omega)
  have hzle : zf (bracketDown zf z n (min hint (n - 2))) ≤ z := by
    rcases hd with h | h
    · rw [h]; exact hlo
    · exact h
  exact bracketGrowing_good n _ (by omega) hzle (by omega)

/-- Modelled from the spec (section 4.5, normal mode): binary search for
the bracketing interval, O(log n), for random-access queries. -/
def bracketBinarySearch (zf : Nat → ℚ) (z : ℚ) : Nat → Nat → Nat → Nat
  | 0, lo, _ => lo
  | fuel + 1, lo, hi =>
      if hi ≤ lo + 1 then lo
      else if z < zf ((lo + hi) / 2) then bracketBinarySearch zf z fuel lo ((lo + hi) / 2)
      else bracketBinarySearch zf z fuel ((lo + hi) / 2) hi

lemma bracketBinarySearch_good {n : Nat} {zf : Nat → ℚ} {z : ℚ} :
    ∀ fuel lo hi, lo < hi → hi < n → zf lo ≤ z → (z < zf hi ∨ hi + 1 = n) →
      hi - lo ≤ fuel → goodIdx n zf z (bracketBinarySearch zf z fuel lo hi) := by
  intro fuel
  induction fuel with
  | zero => intro lo hi h1 _ _ _ h5; exact absurd h1 (by omega)
  | succ fuel ih =>
    intro lo hi h1 h2 h3 h4 h5
    show goodIdx n zf z
      (if hi ≤ lo + 1 then lo
       else if z < zf ((lo + hi) / 2) then bracketBinarySearch zf z fuel lo ((lo + hi) / 2)
       else bracketBinarySearch zf z fuel ((lo + hi) / 2) hi)
    split
    case isTrue hc =>
      refine ⟨by omega, h3, ?_⟩
      rcases h4 with h | h
      · have he : hi = lo + 1 := by omega
        exact Or.inl (he ▸ h)
      · exact Or.inr (by omega)
    case isFalse hc =>
      split
      case isTrue hm =>
        exact ih lo ((lo + hi) / 2) (by omega) (by omega) h3 (Or.inl hm) (by omega)
      case isFalse hm =>
        exact ih ((lo + hi) / 2) hi (by omega) h2 (not_lt.mp hm) h4 (by omega)

/-- Modelled from the spec (section 4.5, normal mode): top-level binary
search over the whole grid. -/
def bracketBinary (n : Nat) (zf : Nat → ℚ) (z : ℚ) : Nat :=
  bracketBinarySearch zf z n 0 (n - 1)

lemma bracketBinary_good {n : Nat} {zf : Nat → ℚ} {z : ℚ}
    (hn : 2 ≤ n) (hlo : zf 0 ≤ z) :
    goodIdx n zf z (bracketBinary n zf z) :=
  bracketBinarySearch_good n 0 (n - 1) (by omega) (by omega) hlo
    (Or.inr (by omega)) (by omega)

/-- The interpolation modes of `thermodynamics_at_z` (the
`enum interpolation_mode` of its declaration in `thermodynamics.h`);
constructors modelled from the spec (section 4.5): normal binary search,
closest-hint local search, growing-index forward scan. -/
inductive interpolation_mode where
  | inter_normal
  | inter_closest
  | inter_growing
deriving DecidableEq

/-- The vector of thermodynamical quantities returned by a query, one
value per `index_th_*` column. -/
structure ThermoVec where
  xe : ℚ
  dkappa : ℚ
  kappa : ℚ
  g : ℚ
  Tb : ℚ
  cb2 : ℚ
deriving DecidableEq

/-- Modelled from the spec (section 4.5): natural cubic-spline evaluation
of one tabulated quantity on the bracketing interval `[zf i, zf (i+1)]`,
from the values `y` and the second-derivative table `d2`. -/
def splineEval (zf y d2 : Nat → ℚ) (i : Nat) (z : ℚ) : ℚ :=
  let h := zf (i + 1) - zf i
  let a := (zf (i + 1) - z) / h
  let b := (z - zf i) / h
  a * y i + b * y (i + 1) + ((a^3 - a) * d2 i + (b^3 - b) * d2 (i + 1)) * h^2 / 6

/-- Modelled from the spec (section 4.5): the full thermodynamic-quantity
vector interpolated at `z` on the bracketing interval `i`. -/
def evalVec (t : ThermoTable) (d2 : Columns) (i : Nat) (z : ℚ) : ThermoVec :=
  ⟨splineEval t.zf t.cols.xe d2.xe i z,
   splineEval t.zf t.cols.dkappa d2.dkappa i z,
   splineEval t.zf t.cols.kappa d2.kappa i z,
   splineEval t.zf t.cols.g d2.g i z,
   splineEval t.zf t.cols.Tb d2.Tb i z,
   splineEval t.zf t.cols.cb2 d2.cb2 i z⟩

/-- Modelled from the spec (sections 4.5, 6, 7): the query interface
`thermodynamics_at_z` (`EvaluateAt`).  A query outside the tabulated
range is a recoverable out-of-range error with no extrapolation;
otherwise the bracketing interval is located by the strategy selected by
`intermode` and the spline is evaluated there, returning the quantity
vector together with the updated last-index hint. -/
def thermodynamics_at_z (t : ThermoTable) (d2 : Columns) (z : ℚ)
    (intermode : interpolation_mode) (last_index : Nat) :
    Except ThermoError (ThermoVec × Nat) :=
  if z < t.zf 0 ∨ t.zf (t.n - 1) < z then .error .outOfRange
  else
    let i := match intermode with
      | .inter_normal => bracketBinary t.n t.zf z
      | .inter_closest => bracketClosest t.n t.zf z last_index
      | .inter_growing => bracketGrowing t.n t.zf z t.n last_index
    .ok (evalVec t d2 i z, i)

/-- C2: for a fixed table and an in-range query redshift, the three
interpolation modes of `thermodynamics_at_z` return identical results:
the closest-hint search (for any hint) and the growing-index forward scan
(from any last index at or below the bracketing interval, as the
monotone-query contract guarantees) agree exactly with the normal binary
search; the modes differ only in search cost. -/
theorem thermodynamics_at_z_mode_equiv (t : ThermoTable) (d2 : Columns)
    (z : ℚ) (hint last : Nat)
    (hs : SortedZ t.n t.zf) (hn : 2 ≤ t.n)
    (hlo : t.zf 0 ≤ z) (hhi : z ≤ t.zf (t.n - 1))
    (hg : t.zf last ≤ z) (hl : last + 1 < t.n) :
    thermodynamics_at_z t d2 z .inter_closest hint =
      thermodynamics_at_z t d2 z .inter_normal 0 ∧
    thermodynamics_at_z t d2 z .inter_growing last =
      thermodynamics_at_z t d2 z .inter_normal 0 := by
  have hnot : ¬(z < t.zf 0 ∨ t.zf (t.n - 1) < z) := by
    push_neg
    exact ⟨hlo, hhi⟩
  have hb := @bracketBinary_good t.n t.zf z hn hlo
  have hc := @bracketClosest_good t.n t.zf z hint hn hlo
  have hgrow := @bracketGrowing_good t.n t.zf z t.n last hl hg (by omega)
  have e1 : bracketClosest t.n t.zf z hint = bracketBinary t.n t.zf z :=
    goodIdx_unique hs hc hb
  have e2 : bracketGrowing t.n t.zf z t.n last = bracketBinary t.n t.zf z :=
    goodIdx_unique hs hgrow hb
  constructor
  · show (if z < t.zf 0 ∨ t.zf (t.n - 1) < z then Except.error ThermoError.outOfRange
      else .ok (evalVec t d2 (bracketClosest t.n t.zf z hint) z, bracketClosest t.n t.zf z hint)) =
      (if z < t.zf 0 ∨ t.zf (t.n - 1) < z then Except.error ThermoError.outOfRange
      else .ok (evalVec t d2 (bracketBinary t.n t.zf z) z, bracketBinary t.n t.zf z))
    rw [if_neg hnot, if_neg hnot, e1]
  · show (if z < t.zf 0 ∨ t.zf (t.n - 1) < z then Except.error ThermoError.outOfRange
      else .ok (evalVec t d2 (bracketGrowing t.n t.zf z t.n last) z, bracketGrowing t.n t.zf z t.n last)) =
      (if z < t.zf 0 ∨ t.zf (t.n - 1) < z then Except.error ThermoError.outOfRange
      else .ok (evalVec t d2 (bracketBinary t.n t.zf z) z, bracketBinary t.n t.zf z))
    rw [if_neg hnot, if_neg hnot, e2]

/-- Concrete three-row table used to instantiate the query theorems. -/
def thermoTableW : ThermoTable :=
  ⟨3, fun i => (i : ℚ),
   ⟨fun _ => 1, fun _ => 1, fun _ => 0, fun _ => 0, fun _ => 0, fun _ => 0⟩⟩

/-- Concrete all-zero second-derivative table for the query theorems. -/
def splineColsW : Columns :=
  ⟨fun _ => 0, fun _ => 0, fun _ => 0, fun _ => 0, fun _ => 0, fun _ => 0⟩

/-- Witness for C2: the mode-equivalence theorem instantiated on a
concrete three-row table, an in-range query and a valid growing-mode
start index. -/
theorem thermodynamics_at_z_mode_equiv_witness :
    (SortedZ thermoTableW.n thermoTableW.zf ∧ 2 ≤ thermoTableW.n ∧
      thermoTableW.zf 0 ≤ 1 ∧ (1 : ℚ) ≤ thermoTableW.zf (thermoTableW.n - 1) ∧
      thermoTableW.zf 1 ≤ 1 ∧ 1 + 1 < thermoTableW.n) ∧
    (thermodynamics_at_z thermoTableW splineColsW 1 .inter_closest 7 =
      thermodynamics_at_z thermoTableW splineColsW 1 .inter_normal 0 ∧
    thermodynamics_at_z thermoTableW splineColsW 1 .inter_growing 1 =
      thermodynamics_at_z thermoTableW splineColsW 1 .inter_normal 0) :=
  ⟨⟨by decide, by decide, by decide, by decide, by decide, by decide⟩,
   thermodynamics_at_z_mode_equiv thermoTableW splineColsW 1 7 1
     (by decide) (by decide) (by decide) (by decide) (by decide) (by decide)⟩

/-- C6: querying `thermodynamics_at_z` at a redshift strictly outside the
tabulated range returns the recoverable out-of-range error under every
interpolation mode — no extrapolated value — and the table remains valid:
any subsequent in-range query still succeeds. -/
theorem thermodynamics_at_z_out_of_range (t : ThermoTable) (d2 : Columns)
    (z : ℚ) (intermode : interpolation_mode) (last_index : Nat)
    (h : z < t.zf 0 ∨ t.zf (t.n - 1) < z) :
    thermodynamics_at_z t d2 z intermode last_index = .error .outOfRange ∧
    ∀ z' mode' last', t.zf 0 ≤ z' → z' ≤ t.zf (t.n - 1) →
      ∃ v i, thermodynamics_at_z t d2 z' mode' last' = .ok (v, i) := by
  constructor
  · show (if z < t.zf 0 ∨ t.zf (t.n - 1) < z then Except.error ThermoError.outOfRange
      else _) = Except.error ThermoError.outOfRange
    rw [if_pos h]
  · intro z' mode' last' h1 h2
    have hnot : ¬(z' < t.zf 0 ∨ t.zf (t.n - 1) < z') := by
      push_neg
      exact ⟨h1, h2⟩
    unfold thermodynamics_at_z
    rw [if_neg hnot]
    exact ⟨_, _, rfl⟩

/-- Witness for C6: an out-of-range query on the concrete three-row table
returns the recoverable out-of-range error, while the in-range queries
keep succeeding. -/
theorem thermodynamics_at_z_out_of_range_witness :
    ((7 : ℚ) < thermoTableW.zf 0 ∨ thermoTableW.zf (thermoTableW.n - 1) < 7) ∧
    (thermodynamics_at_z thermoTableW splineColsW 7 .inter_normal 0 =
        .error .outOfRange ∧
    ∀ z' mode' last', thermoTableW.zf 0 ≤ z' →
        z' ≤ thermoTableW.zf (thermoTableW.n - 1) →
      ∃ v i, thermodynamics_at_z thermoTableW splineColsW z' mode' last' = .ok (v, i)) :=
  ⟨Or.inr (by decide),
   thermodynamics_at_z_out_of_range thermoTableW splineColsW 7 .inter_normal 0
     (Or.inr (by decide))⟩

/-- Embedded from `thermodynamics.h` lines 21-24: is the input parameter
the reionization redshift or the optical depth? -/
inductive reionization_z_or_tau where
  | reio_z
  | reio_tau
deriving DecidableEq

/-- Modelled from the spec (sections 4.2, 6): the precision configuration
of the root search; the bounds of the search interval are configuration,
not compile-time constants, together with the residual tolerance and the
iteration ceiling. -/
structure SearchConfig where
  z_lo : ℚ
  z_hi : ℚ
  tol : ℚ
  maxIter : Nat

/-- Modelled from the spec (section 4.2): the bisection control loop of
the optical-depth-to-redshift search.  Each trial evaluates the forward
optical depth at the interval midpoint and either accepts it (residual
within tolerance), or halves the interval; an exhausted iteration budget
is a non-convergence error, never a silently inaccurate redshift. -/
def reio_search (tauOf : ℚ → ℚ) (target tol : ℚ) : Nat → ℚ → ℚ → Except ThermoError ℚ
  | 0, _, _ => .error .nonConvergence
  | fuel + 1, lo, hi =>
      if |tauOf ((lo + hi) / 2) - target| ≤ tol then .ok ((lo + hi) / 2)
      else if tauOf ((lo + hi) / 2) < target then
        reio_search tauOf target tol fuel ((lo + hi) / 2) hi
      else reio_search tauOf target tol fuel lo ((lo + hi) / 2)

/-- Modelled from the spec (sections 4.2, 6): `thermodynamics_reionization`.
With the direct-redshift selector `reio_z` the forward pipeline is run once
at the given redshift, returning it together with its cumulative
reionization optical depth `tauOf z`.  With the `reio_tau` selector the
target optical depth is first checked against the achievable range of the
configured search interval (bracketing), then the bisection loop runs
under the configured iteration ceiling. -/
def thermodynamics_reionization (cfg : SearchConfig)
    (sel : reionization_z_or_tau) (input : ℚ) (tauOf : ℚ → ℚ) :
    Except ThermoError (ℚ × ℚ) :=
  match sel with
  | .reio_z => .ok (input, tauOf input)
  | .reio_tau =>
      if input < tauOf cfg.z_lo ∨ tauOf cfg.z_hi < input then .error .bracketingFailure
      else (reio_search tauOf input cfg.tol cfg.maxIter cfg.z_lo cfg.z_hi).map
        (fun z => (z, tauOf z))

lemma reio_search_ok {tauOf : ℚ → ℚ} {target tol : ℚ} :
    ∀ fuel lo hi z, reio_search tauOf target tol fuel lo hi = .ok z →
      |tauOf z - target| ≤ tol := by
  intro fuel
  induction fuel with
  | zero =>
    intro lo hi z h
    exact absurd h (by simp [reio_search])
  | succ fuel ih =>
    intro lo hi z h
    rw [reio_search] at h
    split at h
    case isTrue hc =>
      injection h with h'
      rw [← h']
      exact hc
    case isFalse hc =>
      split at h
      case isTrue => exact ih _ _ _ h
      case isFalse => exact ih _ _ _ h

lemma reio_search_total {tauOf : ℚ → ℚ} {target tol : ℚ} :
    ∀ fuel lo hi, (∃ z, reio_search tauOf target tol fuel lo hi = .ok z) ∨
      reio_search tauOf target tol fuel lo hi = .error .nonConvergence := by
  intro fuel
  induction fuel with
  | zero =>
    intro lo hi
    right
    rfl
  | succ fuel ih =>
    intro lo hi
    rw [reio_search]
    split
    case isTrue hc => exact Or.inl ⟨_, rfl⟩
    case isFalse hc =>
      split
      case isTrue => exact ih _ _
      case isFalse => exact ih _ _

/-- C3: the `reio_tau` branch of `thermodynamics_reionization` never
silently returns an inaccurate redshift: every successful result carries a
residual within the configured tolerance; when the iteration budget is
exhausted before convergence the result is the non-convergence error (the
only other possible outcome of a bracketed search); and a bracketing
failure (target optical depth outside the achievable range of the
configured search interval) is reported as an error distinct from slow
convergence. -/
theorem thermodynamics_reionization_error_handling (cfg : SearchConfig)
    (target : ℚ) (tauOf : ℚ → ℚ) :
    (∀ z τ, thermodynamics_reionization cfg .reio_tau target tauOf = .ok (z, τ) →
      |tauOf z - target| ≤ cfg.tol) ∧
    ((target < tauOf cfg.z_lo ∨ tauOf cfg.z_hi < target) →
      thermodynamics_reionization cfg .reio_tau target tauOf =
        .error .bracketingFailure) ∧
    ThermoError.bracketingFailure ≠ ThermoError.nonConvergence ∧
    (¬(target < tauOf cfg.z_lo ∨ tauOf cfg.z_hi < target) →
      (∃ z τ, thermodynamics_reionization cfg .reio_tau target tauOf = .ok (z, τ) ∧
        |tauOf z - target| ≤ cfg.tol) ∨
      thermodynamics_reionization cfg .reio_tau target tauOf =
        .error .nonConvergence) := by
  refine ⟨?_, ?_, by decide, ?_⟩
  · intro z τ h
    simp only [thermodynamics_reionization] at h
    split at h
    · exact absurd h (by simp)
    · rcases hr : reio_search tauOf target cfg.tol cfg.maxIter cfg.z_lo cfg.z_hi with e | z0
      · rw [hr] at h
        exact absurd h (by simp [Except.map])
      · rw [hr] at h
        simp only [Except.map] at h
        injection h with h'
        have hz : z0 = z := congrArg Prod.fst h'
        rw [hz] at hr
        exact reio_search_ok cfg.maxIter cfg.z_lo cfg.z_hi z hr
  · intro hbr
    unfold thermodynamics_reionization
    rw [if_pos hbr]
  · intro hbr
    unfold thermodynamics_reionization
    rw [if_neg hbr]
    rcases @reio_search_total tauOf target cfg.tol
        cfg.maxIter cfg.z_lo cfg.z_hi with ⟨z, hz⟩ | hz
    · left
      exact ⟨z, tauOf z, by rw [hz]; rfl,
        reio_search_ok cfg.maxIter cfg.z_lo cfg.z_hi z hz⟩
    · right
      rw [hz]
      rfl

/-- C4: round trip of the root search.  Whenever the `reio_tau` search
converges to a redshift, running the forward pipeline again with the
direct-redshift selector `reio_z` at that redshift succeeds and reproduces
a cumulative reionization optical depth within the configured tolerance of
the original target. -/
theorem thermodynamics_reionization_roundtrip (cfg : SearchConfig)
    (target : ℚ) (tauOf : ℚ → ℚ) (z τ : ℚ)
    (h : thermodynamics_reionization cfg .reio_tau target tauOf = .ok (z, τ)) :
    ∃ τ2, thermodynamics_reionization cfg .reio_z z tauOf = .ok (z, τ2) ∧
      |τ2 - target| ≤ cfg.tol := by
  refine ⟨tauOf z, rfl, ?_⟩
  simp only [thermodynamics_reionization] at h
  split at h
  · exact absurd h (by simp)
  · rcases hr : reio_search tauOf target cfg.tol cfg.maxIter cfg.z_lo cfg.z_hi with e | z0
    · rw [hr] at h
      exact absurd h (by simp [Except.map])
    · rw [hr] at h
      simp only [Except.map] at h
      injection h with h'
      have hz : z0 = z := congrArg Prod.fst h'
      rw [hz] at hr
      exact reio_search_ok cfg.maxIter cfg.z_lo cfg.z_hi z hr

/-- Concrete search configuration used to instantiate the round-trip
theorem: interval [0,2], tolerance 1, budget of five iterations. -/
def searchConfigW : SearchConfig := ⟨0, 2, 1, 5⟩

/-- Witness for C4: on the identity forward map and target 1, the search
converges at the first midpoint and the round trip through the `reio_z`
selector reproduces the target exactly. -/
theorem thermodynamics_reionization_roundtrip_witness :
    thermodynamics_reionization searchConfigW .reio_tau 1 (fun z => z) = .ok (1, 1) ∧
    ∃ τ2, thermodynamics_reionization searchConfigW .reio_z 1 (fun z => z) = .ok (1, τ2) ∧
      |τ2 - 1| ≤ searchConfigW.tol :=
  ⟨by norm_num [thermodynamics_reionization, reio_search, searchConfigW, Except.map],
   thermodynamics_reionization_roundtrip searchConfigW 1 (fun z => z) 1 1
     (by norm_num [thermodynamics_reionization, reio_search, searchConfigW, Except.map])⟩

/-- A row of the recombination table, mirroring the `index_re_*` fields of
`struct recombination` in `thermodynamics.h`: redshift, ionization
fraction, baryon temperature, squared baryon sound speed, Thomson
scattering rate. -/
structure RecoRow where
  z : ℚ
  xe : ℚ
  Tb : ℚ
  cb2 : ℚ
  dkappa : ℚ
deriving DecidableEq

/-- Modelled from the spec (sections 4.2, 4.3): the parametrized
reionization model, evaluating each ionization-dependent quantity as a
smooth function of redshift (`thermodynamics_reionization_function` for
the ionization fraction, with the analogous baryon quantities). -/
structure ReioProfile where
  xe : ℚ → ℚ
  Tb : ℚ → ℚ
  cb2 : ℚ → ℚ
  dkappa : ℚ → ℚ

/-- Modelled from the spec (section 4.3): the row re-evaluated from the
Reionization Model at a given redshift. -/
def reio_eval_row (pr : ReioProfile) (z : ℚ) : RecoRow :=
  ⟨z, pr.xe z, pr.Tb z, pr.cb2 z, pr.dkappa z⟩

/-- Modelled from the spec (section 4.3): `thermodynamics_merge_reco_and_reio`
overwrites the rows of the recombination table at redshifts below the
reionization start redshift with values re-evaluated from the Reionization
Model, and keeps the rows above it unmodified; no row is appended or
removed. -/
def thermodynamics_merge_reco_and_reio (reco : List RecoRow) (zStart : ℚ)
    (pr : ReioProfile) : List RecoRow :=
  reco.map (fun r => if r.z < zStart then reio_eval_row pr r.z else r)

lemma merge_row_z (zStart : ℚ) (pr : ReioProfile) (r : RecoRow) :
    (if r.z < zStart then reio_eval_row pr r.z else r).z = r.z := by
  split
  · rfl
  · rfl

/-- C5: frame condition of the merge.  The merged table has exactly as
many rows as the recombination table (nothing appended); every row whose
redshift is above the reionization start redshift is exactly the
unmodified recombination row; every row below it is overwritten with the
values re-evaluated from the Reionization Model at the same redshift; and
the strictly monotonic redshift ordering of the table is preserved. -/
theorem thermodynamics_merge_frame (reco : List RecoRow) (zStart : ℚ)
    (pr : ReioProfile) :
    (thermodynamics_merge_reco_and_reio reco zStart pr).length = reco.length ∧
    (∀ (i : Nat) (r : RecoRow), reco[i]? = some r → zStart < r.z →
      (thermodynamics_merge_reco_and_reio reco zStart pr)[i]? = some r) ∧
    (∀ (i : Nat) (r : RecoRow), reco[i]? = some r → r.z < zStart →
      (thermodynamics_merge_reco_and_reio reco zStart pr)[i]? =
        some (reio_eval_row pr r.z)) ∧
    (List.Chain' (fun a b => a.z < b.z) reco →
      List.Chain' (fun a b => a.z < b.z)
        (thermodynamics_merge_reco_and_reio reco zStart pr)) := by
  refine ⟨List.length_map _ _, ?_, ?_, ?_⟩
  · intro i r hr hz
    rw [thermodynamics_merge_reco_and_reio, List.getElem?_map, hr]
    simp only [Option.map_some']
    rw [if_neg (not_lt.mpr (le_of_lt hz))]
  · intro i r hr hz
    rw [thermodynamics_merge_reco_and_reio, List.getElem?_map, hr]
    simp only [Option.map_some']
    rw [if_pos hz]
  · intro hch
    rw [thermodynamics_merge_reco_and_reio, List.chain'_map]
    refine List.Chain'.imp ?_ hch
    intro a b hab
    rw [merge_row_z, merge_row_z]
    exact hab

/-- Modelled from the spec (sections 4.3, 7, scenario C):
`thermodynamics_reionization_sample` samples the reionization history over
the recombination grid, but only after checking the precondition that the
reionization start redshift falls strictly within the recombination
table's sampled range; a violation is a configuration error raised before
the profile is integrated. -/
def thermodynamics_reionization_sample (n : Nat) (zf : Nat → ℚ) (zStart : ℚ)
    (profile : ℚ → ℚ) : Except ThermoError (List ℚ) :=
  if zf 0 < zStart ∧ zStart < zf (n - 1) then
    .ok ((List.range n).map (fun i => profile (zf i)))
  else .error .configurationError

/-- C7: whenever the reionization start redshift does not fall strictly
within the recombination table's sampled range (in particular when it is
at or above the maximum tabulated recombination redshift),
`thermodynamics_reionization_sample` fails with the configuration error,
uniformly in the reionization profile — i.e. before the profile is
integrated; and when the precondition holds it succeeds. -/
theorem thermodynamics_reionization_sample_guard (n : Nat) (zf : Nat → ℚ)
    (zStart : ℚ) :
    (¬(zf 0 < zStart ∧ zStart < zf (n - 1)) →
      ∀ profile, thermodynamics_reionization_sample n zf zStart profile =
        .error .configurationError) ∧
    ((zf 0 < zStart ∧ zStart < zf (n - 1)) →
      ∀ profile, ∃ xs,
        thermodynamics_reionization_sample n zf zStart profile = .ok xs) := by
  constructor
  · intro h profile
    unfold thermodynamics_reionization_sample
    rw [if_neg h]
  · intro h profile
    refine ⟨(List.range n).map (fun i => profile (zf i)), ?_⟩
    unfold thermodynamics_reionization_sample
    rw [if_pos h]

/-- Modelled from the spec (section 4.4): index of the (first) maximum of
the visibility column over rows 0..m, by linear scan. -/
def argmaxIdx (g : Nat → ℚ) : Nat → Nat
  | 0 => 0
  | m + 1 => if g (argmaxIdx g m) < g (m + 1) then m + 1 else argmaxIdx g m

lemma argmaxIdx_max (g : Nat → ℚ) : ∀ m k, k ≤ m → g k ≤ g (argmaxIdx g m) := by
  intro m
  induction m with
  | zero =>
    intro k hk
    have hk0 : k = 0 := by omega
    rw [hk0]
    show g 0 ≤ g 0
    exact le_refl _
  | succ m ih =>
    intro k hk
    show g k ≤ g (if g (argmaxIdx g m) < g (m + 1) then m + 1 else argmaxIdx g m)
    split
    case isTrue hlt =>
      rcases (by omega : k ≤ m ∨ k = m + 1) with h | h
      · exact le_trans (ih k h) (le_of_lt hlt)
      · rw [h]
    case isFalse hlt =>
      rcases (by omega : k ≤ m ∨ k = m + 1) with h | h
      · exact ih k h
      · rw [h]
        exact le_trans (not_lt.mp hlt) (le_refl _)

/-- Modelled from the spec (sections 4.3, 4.4, 7): the consistency checks
closing the merge stage, over a merged table of `n` rows.  The x_e values
of the recombination side and of the reionization side at the splice row
are compared against the tolerance, and the visibility column is scanned
for its maximum, which must be interior; either violation is the fatal
merge-inconsistency error, surfaced instead of a table. -/
def thermodynamics_splice_check (n : Nat) (g : Nat → ℚ)
    (xeRecoSplice xeReioSplice tol : ℚ) : Except ThermoError Unit :=
  if tol < |xeRecoSplice - xeReioSplice| then .error .mergeInconsistency
  else if 0 < argmaxIdx g (n - 1) ∧ argmaxIdx g (n - 1) < n - 1 then .ok ()
  else .error .mergeInconsistency

/-- C8: the merge-consistency check fails with the merge-inconsistency
error exactly when the x_e discontinuity at the splice row exceeds its
tolerance or the scanned visibility maximum is not interior to the
tabulated range; and the scanned index is a true maximum of the
visibility column, so the second disjunct states that the visibility
function attains no interior maximum. -/
theorem thermodynamics_splice_check_iff (n : Nat) (g : Nat → ℚ)
    (a b tol : ℚ) :
    (thermodynamics_splice_check n g a b tol = .error .mergeInconsistency ↔
      (tol < |a - b| ∨
        ¬(0 < argmaxIdx g (n - 1) ∧ argmaxIdx g (n - 1) < n - 1))) ∧
    ∀ k ≤ n - 1, g k ≤ g (argmaxIdx g (n - 1)) := by
  constructor
  · unfold thermodynamics_splice_check
    split
    case isTrue h1 => simp [h1]
    case isFalse h1 =>
      split
      case isTrue h2 => simp [h1, h2]
      case isFalse h2 => simp [h1, h2]
  · intro k hk
    exact argmaxIdx_max g (n - 1) k hk
